import Mathlib

/-!
Verification development for the `fox` library, a Go client for the Twilio
programmatic fax API.  The definitions below are a shallow embedding of the
library's current (struct-based) client: the quality enumeration, the send and
list option encoders, the error model, URL construction (`path.Join` /
`url.URL.String` modelled at the level the library exercises them), the
pre-flight validation in `Client.Get` / `Client.Send`, and the HTTP status
classification in `Client.do`.  Network transport and JSON decoding are
represented as explicit function parameters, so every operation is a pure
function of its inputs.
-/

namespace Fox

/-- Embeds Go's `qualityType` enumeration: the three declared constants
`QualityStandard`, `QualityFine` and `QualitySuperfine` (iota values 0, 1, 2).
The spec treats the quality as this closed three-value enum. -/
inductive qualityType where
  | standard
  | fine
  | superfine
deriving DecidableEq, Repr

/-- Embeds `func (qt qualityType) String() string`: the canonical wire label of
each quality constant. -/
def qualityType.render : qualityType → String
  | .standard => "standard"
  | .fine => "fine"
  | .superfine => "superfine"

/-- Embeds `type SendOpts struct` from the current core file: quality, optional
SIP credentials, optional status-callback URL, the store-media flag and a TTL
in minutes (Go `int`, modelled as `Int`). -/
structure SendOpts where
  Quality : qualityType
  SIPAuthPassword : String
  SIPAuthUsername : String
  StatusCallback : String
  StoreMedia : Bool
  TTLMinutes : Int
deriving DecidableEq, Repr

/-- Embeds `url.Values.Add(key, value)`: appends one key/value entry to the
accumulated form data (order of `Add` calls is preserved). -/
def valuesAdd (data : List (String × String)) (key value : String) :
    List (String × String) :=
  data ++ [(key, value)]

/-- Embeds `strconv.FormatBool`. -/
def formatBool (b : Bool) : String :=
  if b then "true" else "false"

/-- Embeds `func (so *SendOpts) urlEncode(data url.Values)` from the current
core file: `Quality` always; `SipAuthPassword`, `SipAuthUsername`,
`StatusCallback` only when non-empty; `StoreMedia` always; `Ttl` only when
`TTLMinutes > 0`, rendered with `strconv.FormatInt(int64(m), 10)`. -/
def SendOpts.urlEncode (so : SendOpts) (data : List (String × String)) :
    List (String × String) :=
  let d1 := valuesAdd data "Quality" so.Quality.render
  let d2 := if so.SIPAuthPassword ≠ "" then
      valuesAdd d1 "SipAuthPassword" so.SIPAuthPassword else d1
  let d3 := if so.SIPAuthUsername ≠ "" then
      valuesAdd d2 "SipAuthUsername" so.SIPAuthUsername else d2
  let d4 := if so.StatusCallback ≠ "" then
      valuesAdd d3 "StatusCallback" so.StatusCallback else d3
  let d5 := valuesAdd d4 "StoreMedia" (formatBool so.StoreMedia)
  if so.TTLMinutes > 0 then
    valuesAdd d5 "Ttl" (toString so.TTLMinutes)
  else d5

/-- Embeds `var DefaultSendOpts = &SendOpts{Quality: QualityFine,
StoreMedia: true}`: unmentioned fields take their Go zero values. -/
def DefaultSendOpts : SendOpts :=
  { Quality := .fine
    SIPAuthPassword := ""
    SIPAuthUsername := ""
    StatusCallback := ""
    StoreMedia := true
    TTLMinutes := 0 }

/-- Models Go's `time.Time` restricted to what the library observes: the civil
(calendar) fields, the sub-second nanoseconds and the zone offset in minutes.
`time.Time` always holds a normalized civil datetime. -/
structure GoTime where
  year : Int
  month : Nat
  day : Nat
  hour : Nat
  minute : Nat
  second : Nat
  nano : Nat
  offsetMin : Int
deriving DecidableEq, Repr

/-- The Go zero `time.Time`: January 1, year 1, 00:00:00 UTC. -/
def GoTime.zero : GoTime :=
  { year := 1, month := 1, day := 1, hour := 0, minute := 0, second := 0
    nano := 0, offsetMin := 0 }

/-- Embeds `time.Time.IsZero`. -/
def GoTime.isZero (t : GoTime) : Bool :=
  decide (t = GoTime.zero)

/-- Two-digit zero-padded decimal, as the `15`/`04`/`05`/`01`/`02` layout
chunks of `time.Format` render (valid for values below 100). -/
def pad2 (n : Nat) : List Char :=
  [Nat.digitChar (n / 10), Nat.digitChar (n % 10)]

/-- Four-digit zero-padded decimal, as the `2006` layout chunk renders years
in 0..9999. -/
def pad4 (n : Nat) : List Char :=
  [Nat.digitChar (n / 1000), Nat.digitChar (n / 100 % 10),
    Nat.digitChar (n / 10 % 10), Nat.digitChar (n % 10)]

/-- Year rendering of the `2006` layout chunk: zero-padded four digits, with a
sign for negative years (faithful for years of magnitude at most 9999, the
RFC 3339 representable range). -/
def yearChars (y : Int) : List Char :=
  if y < 0 then '-' :: pad4 (-y).toNat else pad4 y.toNat

/-- The `Z07:00` layout chunk: `Z` for UTC, otherwise a signed `hh:mm`
offset. -/
def offsetChars (o : Int) : List Char :=
  if o = 0 then ['Z']
  else
    (if o < 0 then '-' else '+') ::
      (pad2 (o.natAbs / 60) ++ ':' :: pad2 (o.natAbs % 60))

/-- Embeds `time.Time.Format(time.RFC3339)` (layout
`2006-01-02T15:04:05Z07:00`): the civil fields to second precision plus the
offset; the layout has no fractional-second chunk, so nanoseconds are not
emitted. -/
def formatRFC3339chars (t : GoTime) : List Char :=
  yearChars t.year ++ '-' :: pad2 t.month ++ '-' :: pad2 t.day ++
    'T' :: pad2 t.hour ++ ':' :: pad2 t.minute ++ ':' :: pad2 t.second ++
    offsetChars t.offsetMin

/-- String form of `formatRFC3339chars`. -/
def formatRFC3339 (t : GoTime) : String :=
  ⟨formatRFC3339chars t⟩

/-- Decimal digit value of a character, if any. -/
def digVal (c : Char) : Option Nat :=
  if '0' ≤ c ∧ c ≤ '9' then some (c.toNat - 48) else none

/-- Reads exactly two decimal digits. -/
def read2 : List Char → Option (Nat × List Char)
  | a :: b :: rest =>
    match digVal a, digVal b with
    | some x, some y => some (x * 10 + y, rest)
    | _, _ => none
  | _ => none

/-- Reads exactly four decimal digits. -/
def read4 : List Char → Option (Nat × List Char)
  | a :: b :: c :: d :: rest =>
    match digVal a, digVal b, digVal c, digVal d with
    | some x, some y, some z, some w =>
      some (x * 1000 + y * 100 + z * 10 + w, rest)
    | _, _, _, _ => none
  | _ => none

/-- Consumes one expected literal character. -/
def expectChar (c : Char) : List Char → Option (List Char)
  | x :: rest => if x = c then some rest else none
  | [] => none

/-- Optional fractional-second suffix after the seconds field: a `.` followed
by digits, of which the first nine contribute to the nanosecond value. -/
def readFraction : List Char → Option (Nat × List Char)
  | '.' :: rest =>
    let ds := rest.takeWhile (fun c => decide ('0' ≤ c) && decide (c ≤ '9'))
    if ds = [] then none
    else
      let ds9 := ds.take 9
      let v := ds9.foldl (fun acc c => acc * 10 + (c.toNat - 48)) 0
      some (v * 10 ^ (9 - ds9.length), rest.drop ds.length)
  | rest => some (0, rest)

/-- The numeric zone offset: `Z`, or a sign followed by `hh:mm` with the hour
below 24 and the minute below 60. -/
def readOffset : List Char → Option (Int × List Char)
  | [] => none
  | c :: rest =>
    if c = 'Z' then some (0, rest)
    else if c = '+' ∨ c = '-' then
      match read2 rest with
      | none => none
      | some (h, r2) =>
        match expectChar ':' r2 with
        | none => none
        | some r3 =>
          match read2 r3 with
          | none => none
          | some (m, r4) =>
            if h ≤ 23 ∧ m ≤ 59 then
              some (if c = '-' then -((h * 60 + m : Nat) : Int)
                else ((h * 60 + m : Nat) : Int), r4)
            else none
    else none

/-- `true` on Gregorian leap years (`isLeap` in Go's `time` package). -/
def isLeapYear (y : Int) : Bool :=
  decide (y % 4 = 0 ∧ (y % 100 ≠ 0 ∨ y % 400 = 0))

/-- Length in days of a month. -/
def daysInMonth (y : Int) (m : Nat) : Nat :=
  if m = 2 then (if isLeapYear y then 29 else 28)
  else if m = 4 ∨ m = 6 ∨ m = 9 ∨ m = 11 then 30
  else 31

/-- The `YYYY-MM-DD` prefix of an RFC 3339 string: four-digit year and
two-digit month and day separated by `-`, returned with the remaining
input. -/
def parseDatePart (cs : List Char) : Option (Nat × Nat × Nat × List Char) :=
  (read4 cs).bind fun p1 =>
  (expectChar '-' p1.2).bind fun r2 =>
  (read2 r2).bind fun p2 =>
  (expectChar '-' p2.2).bind fun r4 =>
  (read2 r4).bind fun p3 =>
  some (p1.1, p2.1, p3.1, p3.2)

/-- The `hh:mm:ss` clock chunk of an RFC 3339 string: two-digit hour, minute
and second separated by `:`, returned with the remaining input. -/
def parseClockPart (cs : List Char) : Option (Nat × Nat × Nat × List Char) :=
  (read2 cs).bind fun p4 =>
  (expectChar ':' p4.2).bind fun r8 =>
  (read2 r8).bind fun p5 =>
  (expectChar ':' p5.2).bind fun r10 =>
  (read2 r10).bind fun p6 =>
  some (p4.1, p5.1, p6.1, p6.2)

/-- Embeds `time.Parse(time.RFC3339, s)` (the strict RFC 3339 parse path) on
the character list: the date, a literal `T`, the clock, an optional
fractional second, a `Z` or signed `hh:mm` offset, no trailing input, and
calendar range checks on every field. -/
def parseRFC3339chars (cs : List Char) : Option GoTime :=
  (parseDatePart cs).bind fun d =>
  (expectChar 'T' d.2.2.2).bind fun r6 =>
  (parseClockPart r6).bind fun c =>
  (readFraction c.2.2.2).bind fun p7 =>
  (readOffset p7.2).bind fun p8 =>
  if p8.2 = [] ∧ 1 ≤ d.2.1 ∧ d.2.1 ≤ 12 ∧ 1 ≤ d.2.2.1 ∧
      d.2.2.1 ≤ daysInMonth (d.1 : Int) d.2.1 ∧ c.1 ≤ 23 ∧ c.2.1 ≤ 59 ∧
      c.2.2.1 ≤ 59 then
    some { year := (d.1 : Int), month := d.2.1, day := d.2.2.1, hour := c.1
           minute := c.2.1, second := c.2.2.1, nano := p7.1
           offsetMin := p8.1 }
  else none

/-- String form of `parseRFC3339chars`. -/
def parseRFC3339 (s : String) : Option GoTime :=
  parseRFC3339chars s.data

/-- Day number of a civil date counted from the Unix epoch (the standard
civil-from-days correspondence `time` uses internally). -/
def daysFromCivil (y : Int) (m d : Nat) : Int :=
  let y2 : Int := if m ≤ 2 then y - 1 else y
  let era : Int := (if 0 ≤ y2 then y2 else y2 - 399) / 400
  let yoe : Int := y2 - era * 400
  let mp : Int := if 2 < m then (m : Int) - 3 else (m : Int) + 9
  let doy : Int := (153 * mp + 2) / 5 + (d : Int) - 1
  let doe : Int := yoe * 365 + yoe / 4 - yoe / 100 + doy
  era * 146097 + doe - 719468

/-- The absolute instant a `GoTime` denotes, in nanoseconds since the Unix
epoch (civil fields minus the zone offset).  Two times denote the same instant
exactly when their `epochNano` agree. -/
def GoTime.epochNano (t : GoTime) : Int :=
  (daysFromCivil t.year t.month t.day * 86400 +
      (t.hour : Int) * 3600 + (t.minute : Int) * 60 + (t.second : Int) -
      t.offsetMin * 60) * 1000000000 + (t.nano : Int)

/-- A `GoTime` whose fields form a normalized civil datetime in the RFC 3339
representable range — the invariant Go's `time.Time` maintains for the values
the library formats. -/
def GoTime.validCivil (t : GoTime) : Prop :=
  1 ≤ t.year ∧ t.year ≤ 9999 ∧ 1 ≤ t.month ∧ t.month ≤ 12 ∧
    1 ≤ t.day ∧ t.day ≤ daysInMonth t.year t.month ∧
    t.hour ≤ 23 ∧ t.minute ≤ 59 ∧ t.second ≤ 59 ∧
    t.nano < 1000000000 ∧ t.offsetMin.natAbs < 1440

instance (t : GoTime) : Decidable t.validCivil := by
  unfold GoTime.validCivil
  infer_instance

/-- Embeds `type ListOpts struct`: the fax-list filters. -/
structure ListOpts where
  DateCreatedAfter : GoTime
  DateCreatedOnOrBefore : GoTime
  From : String
  To : String
deriving DecidableEq, Repr

/-- Embeds `func (lo *ListOpts) urlEncode(data url.Values)`: each date filter
only when its timestamp is non-zero (RFC 3339 formatted), each number filter
only when non-empty. -/
def ListOpts.urlEncode (lo : ListOpts) (data : List (String × String)) :
    List (String × String) :=
  let d1 := if !lo.DateCreatedAfter.isZero then
      valuesAdd data "DateCreatedAfter" (formatRFC3339 lo.DateCreatedAfter)
    else data
  let d2 := if !lo.DateCreatedOnOrBefore.isZero then
      valuesAdd d1 "DateCreatedOnOrBefore"
        (formatRFC3339 lo.DateCreatedOnOrBefore)
    else d1
  let d3 := if lo.From ≠ "" then valuesAdd d2 "From" lo.From else d2
  if lo.To ≠ "" then valuesAdd d3 "To" lo.To else d3

/-- Embeds `type ErrorResponse struct`: Twilio's error payload. -/
structure ErrorResponse where
  Code : Int
  Message : String
  MoreInfo : String
  Status : Int
deriving DecidableEq, Repr

/-- Embeds `func (err *ErrorResponse) Error() string`:
`fmt.Sprintf("fox: error %v (Twilio error %v): %s", Status, Code, Message)`
(`%v` on a Go `int` is its base-10 decimal rendering). -/
def ErrorResponse.render (err : ErrorResponse) : String :=
  "fox: error " ++ toString err.Status ++ " (Twilio error " ++
    toString err.Code ++ "): " ++ err.Message

/-- Links object nested in a fax resource. -/
structure SendResponseLinks where
  Media : String
deriving DecidableEq, Repr

/-- Embeds `type SendResponse struct`: the success payload for Get/Send. -/
structure SendResponse where
  AccountSid : String
  APIVersion : String
  Status : String
  SID : String
  URL : String
  Direction : String
  To : String
  From : String
  Quality : String
  DateCreated : GoTime
  DateUpdated : GoTime
  Links : SendResponseLinks
  PriceUnit : String
  Price : String
  Duration : Int
  NumPages : Int
  MediaURL : String
deriving DecidableEq, Repr

/-! ### Path and URL construction

`Client.buildURL` sets `u.Path = path.Join(version, endpoint, param)` and
renders the URL with `url.URL.String()`.  `path.Join` joins the elements from
the first non-empty one with `/` and runs `path.Clean` on the result; `Clean`
is modelled segment-wise (splitting on `/`, dropping empty and `.` segments,
resolving `..` against a stack, keeping leading `..` segments of a relative
path). -/

/-- Splits a character list on `/` (the segment decomposition `path.Clean`
works over). -/
def splitSlash : List Char → List (List Char)
  | [] => [[]]
  | c :: cs =>
    if c = '/' then [] :: splitSlash cs
    else
      match splitSlash cs with
      | [] => [[c]]
      | s :: ss => (c :: s) :: ss

/-- One step of `path.Clean`'s segment processing: skip empty and `.`
segments; on `..`, pop a previous segment when possible, keep the `..` when
the (relative) stack is empty or already ends in `..`, and drop it at the root
of a rooted path. -/
def cleanStep (rooted : Bool) (stack : List (List Char)) (seg : List Char) :
    List (List Char) :=
  if seg = [] ∨ seg = ['.'] then stack
  else if seg = ['.', '.'] then
    match stack with
    | [] => if rooted then [] else [seg]
    | s :: rest => if s = ['.', '.'] then seg :: s :: rest else rest
  else seg :: stack

/-- Joins segments back with `/`. -/
def intercalateSlash : List (List Char) → List Char
  | [] => []
  | [s] => s
  | s :: rest => s ++ '/' :: intercalateSlash rest

/-- Embeds `path.Clean` at segment granularity: the lexical simplification of
a slash-separated path (`Clean("") = "."`). -/
def pathClean (cs : List Char) : List Char :=
  let rooted : Bool := decide (cs.head? = some '/')
  let stack := (splitSlash cs).foldl (cleanStep rooted) []
  let out := intercalateSlash stack.reverse
  if out = [] then (if rooted then ['/'] else ['.'])
  else if rooted then '/' :: out else out

/-- Embeds `strings.Join(elems, "/")` on character lists. -/
def joinSlash : List String → List Char
  | [] => []
  | [s] => s.data
  | s :: rest => s.data ++ '/' :: joinSlash rest

/-- Embeds `path.Join`: drop leading empty elements, return `""` when every
element is empty, otherwise `Clean` the `/`-join of the rest. -/
def pathJoin (elems : List String) : List Char :=
  match elems.dropWhile (· = "") with
  | [] => []
  | rest => pathClean (joinSlash rest)

/-- Characters `net/url` leaves unescaped in a path (`shouldEscape` with mode
`encodePath` returns false): ASCII alphanumerics, the RFC 3986 unreserved
marks, and the sub-delimiters valid in a path — of which only `?` escapes. -/
def isPathSafe (c : Char) : Bool :=
  (decide ('a' ≤ c) && decide (c ≤ 'z')) ||
  (decide ('A' ≤ c) && decide (c ≤ 'Z')) ||
  (decide ('0' ≤ c) && decide (c ≤ '9')) ||
  c == '-' || c == '_' || c == '.' || c == '~' ||
  c == '$' || c == '&' || c == '+' || c == ',' || c == '/' ||
  c == ':' || c == ';' || c == '=' || c == '@'

/-- UTF-8 byte sequence of a character (percent-escaping happens per byte). -/
def utf8Bytes (c : Char) : List Nat :=
  let n := c.toNat
  if n < 128 then [n]
  else if n < 2048 then [192 + n / 64, 128 + n % 64]
  else if n < 65536 then [224 + n / 4096, 128 + n / 64 % 64, 128 + n % 64]
  else [240 + n / 262144, 128 + n / 4096 % 64, 128 + n / 64 % 64, 128 + n % 64]

/-- Upper-case hexadecimal digit, as `net/url` emits in percent-escapes. -/
def hexDigitUpper (n : Nat) : Char :=
  if n < 10 then Char.ofNat (48 + n) else Char.ofNat (55 + n)

/-- Percent-escapes one character in path mode. -/
def escapePathChar (c : Char) : List Char :=
  if isPathSafe c then [c]
  else ((utf8Bytes c).map
    (fun b => ['%', hexDigitUpper (b / 16), hexDigitUpper (b % 16)])).flatten

/-- Embeds `url.URL.EscapedPath()` for a URL whose `RawPath` is unset:
`escape(Path, encodePath)`. -/
def escapePath (s : String) : String :=
  ⟨(s.data.map escapePathChar).flatten⟩

/-- The fields of `url.URL` that `buildURL` populates. -/
structure URL where
  scheme : String
  host : String
  path : String
deriving DecidableEq, Repr

/-- Embeds `url.URL.String()` for a URL with scheme, host and path only:
`scheme ":" "//" host` then the escaped path, preceded by `/` when the path is
non-empty, relative, and a host is present. -/
def URL.render (u : URL) : String :=
  let p := escapePath u.path
  u.scheme ++ ":" ++ (if u.host ≠ "" then "//" ++ u.host else "") ++
    (if p ≠ "" ∧ p.data.head? ≠ some '/' ∧ u.host ≠ "" then "/" else "") ++ p

/-! ### Client -/

/-- The package-level constants pinning the API surface. -/
def apiVersion : String := "v1"

/-- The fixed resource segment of every request path. -/
def apiEndpoint : String := "Faxes"

/-- The package-level `scheme` and `host` variables (overridable in tests),
passed explicitly since the embedding has no global state. -/
structure NetConfig where
  scheme : String
  host : String
deriving DecidableEq, Repr

/-- The production values of the `scheme` and `host` package variables. -/
def defaultNetConfig : NetConfig :=
  { scheme := "https", host := "fax.twilio.com" }

/-- Embeds `type Client struct`: default send options (a `*SendOpts` pointer,
hence `Option`) and the Twilio credentials.  The HTTP client itself is
modelled as the transport argument of each operation. -/
structure Client where
  sendOpts : Option SendOpts
  accountSID : String
  authToken : String
deriving DecidableEq, Repr

/-- Embeds `NewClient`: store the first variadic send-options argument when
one is supplied (even a nil pointer), else the library default. -/
def NewClient (accountSID authToken : String)
    (sendOpts : List (Option SendOpts)) : Client :=
  { sendOpts := match sendOpts with
      | o :: _ => o
      | [] => some DefaultSendOpts
    accountSID := accountSID
    authToken := authToken }

/-- Embeds `func (c *Client) buildURL(param string) *url.URL`. -/
def Client.buildURL (_c : Client) (cfg : NetConfig) (param : String) : URL :=
  { scheme := cfg.scheme
    host := cfg.host
    path := ⟨pathJoin [apiVersion, apiEndpoint, param]⟩ }

/-- The HTTP response as the library sees it: status code plus fully-read
body. -/
structure HTTPResponse where
  status : Nat
  body : String
deriving DecidableEq, Repr

/-- The request the library hands to `http.Client.Do`. -/
structure Request where
  method : String
  url : String
  form : Option (List (String × String))
  basicAuth : Option (String × String)
deriving DecidableEq, Repr

/-- The HTTP round trip (`http.Client.Do` plus body read): either a network
error or a response. -/
abbrev Transport := Request → Except String HTTPResponse

/-- The error values an operation can return: the sentinels of `errors.go`,
the provider `ErrorResponse`, decode and network failures, and the run-time
fault of calling a pointer method on a nil `*SendOpts`. -/
inductive FoxError where
  | notAuthenticated
  | invalidFaxNumber
  | missingSID
  | missingToNumber
  | missingFromNumber
  | missingMediaURL
  | api (er : ErrorResponse)
  | decodeFailure (msg : String)
  | network (msg : String)
  | nilDereference
deriving DecidableEq, Repr

/-- The rendered message of each error: the `errors.New` strings of
`errors.go` for the sentinels, `ErrorResponse.Error()` for provider errors. -/
def FoxError.render : FoxError → String
  | .notAuthenticated => "fox: account SID and/or auth token not specified"
  | .invalidFaxNumber => "fox: fax number supplied is invalid"
  | .missingSID => "fox: SID is required"
  | .missingToNumber => "fox: to number is required"
  | .missingFromNumber => "fox: from number is required"
  | .missingMediaURL => "fox: media URL is required"
  | .api er => er.render
  | .decodeFailure msg => msg
  | .network msg => msg
  | .nilDereference => "runtime error: invalid memory address or nil pointer dereference"

/-- Embeds `func (c *Client) do(r *http.Request) ([]byte, error)`: attach
basic auth, run the transport, and classify by status — 200/201 yield the raw
body; any other status parses the body as an `ErrorResponse` and returns it as
the error, with a parse failure propagated as the decode error itself. -/
def Client.do (c : Client) (transport : Transport) (r : Request)
    (parseErrorResponse : String → Except String ErrorResponse) :
    Except FoxError String :=
  let authed := { r with basicAuth := some (c.accountSID, c.authToken) }
  match transport authed with
  | .error e => .error (.network e)
  | .ok res =>
    if res.status ≠ 200 ∧ res.status ≠ 201 then
      match parseErrorResponse res.body with
      | .error msg => .error (.decodeFailure msg)
      | .ok errRes => .error (.api errRes)
    else .ok res.body

/-- Embeds `func (c *Client) Get(sid string)`.  The pair's second component is
the client state after the call (the method never mutates its receiver).  JSON
decoding of the success body is the `parseSendResponse` parameter. -/
def Client.Get (c : Client) (cfg : NetConfig) (sid : String)
    (transport : Transport)
    (parseErrorResponse : String → Except String ErrorResponse)
    (parseSendResponse : String → Except String SendResponse) :
    Except FoxError SendResponse × Client :=
  if c.accountSID = "" ∨ c.authToken = "" then (.error .notAuthenticated, c)
  else if sid = "" then (.error .missingSID, c)
  else
    let u := c.buildURL cfg sid
    let r : Request :=
      { method := "GET", url := u.render, form := none, basicAuth := none }
    match c.do transport r parseErrorResponse with
    | .error e => (.error e, c)
    | .ok body =>
      match parseSendResponse body with
      | .error msg => (.error (.decodeFailure msg), c)
      | .ok sr => (.ok sr, c)

/-- Embeds the option-selection statement of `Client.Send`: the first variadic
element when one is supplied (with no nil check), else the client default. -/
def Client.selectOpts (c : Client) (sendOpts : List (Option SendOpts)) :
    Option SendOpts :=
  match sendOpts with
  | o :: _ => o
  | [] => c.sendOpts

/-- The form body `Client.Send` builds: `To`, `From`, `MediaUrl`, then the
selected options' encoding. -/
def sendFormData (toNum fromNum mediaURL : String) (opts : SendOpts) :
    List (String × String) :=
  opts.urlEncode
    (valuesAdd (valuesAdd (valuesAdd [] "To" toNum) "From" fromNum)
      "MediaUrl" mediaURL)

/-- The POST request `Client.Send` builds for a given options value. -/
def Client.sendRequest (c : Client) (cfg : NetConfig)
    (toNum fromNum mediaURL : String) (opts : SendOpts) : Request :=
  { method := "POST"
    url := (c.buildURL cfg "").render
    form := some (sendFormData toNum fromNum mediaURL opts)
    basicAuth := none }

/-- The tail of `Client.Send` once a (non-nil) options value is in hand:
perform the request and decode the success body. -/
def Client.sendWith (c : Client) (cfg : NetConfig)
    (toNum fromNum mediaURL : String) (opts : SendOpts) (transport : Transport)
    (parseErrorResponse : String → Except String ErrorResponse)
    (parseSendResponse : String → Except String SendResponse) :
    Except FoxError SendResponse :=
  match c.do transport (c.sendRequest cfg toNum fromNum mediaURL opts)
      parseErrorResponse with
  | .error e => .error e
  | .ok body =>
    match parseSendResponse body with
    | .error msg => .error (.decodeFailure msg)
    | .ok sr => .ok sr

/-- Embeds `func (c *Client) Send(to, from, mediaURL string,
sendOpts ...*SendOpts)`: pre-flight validation in source order, option
selection, then the request.  A selected nil options pointer reaches
`opts.urlEncode(data)` unchecked; that call faults, modelled as the
`nilDereference` outcome. -/
def Client.Send (c : Client) (cfg : NetConfig) (toNum fromNum mediaURL : String)
    (sendOpts : List (Option SendOpts)) (transport : Transport)
    (parseErrorResponse : String → Except String ErrorResponse)
    (parseSendResponse : String → Except String SendResponse) :
    Except FoxError SendResponse × Client :=
  if c.accountSID = "" ∨ c.authToken = "" then (.error .notAuthenticated, c)
  else if toNum = "" then (.error .missingToNumber, c)
  else if fromNum = "" then (.error .missingFromNumber, c)
  else if mediaURL = "" then (.error .missingMediaURL, c)
  else
    match c.selectOpts sendOpts with
    | none => (.error .nilDereference, c)
    | some opts =>
      (c.sendWith cfg toNum fromNum mediaURL opts transport
        parseErrorResponse parseSendResponse, c)

/-! ## Theorems -/

/-- Normal form of the send-options encoder: the appended entries as one
explicit concatenation. -/
theorem SendOpts.urlEncode_expand (so : SendOpts)
    (data : List (String × String)) :
    so.urlEncode data =
      data ++ [("Quality", so.Quality.render)]
        ++ (if so.SIPAuthPassword ≠ "" then
              [("SipAuthPassword", so.SIPAuthPassword)] else [])
        ++ (if so.SIPAuthUsername ≠ "" then
              [("SipAuthUsername", so.SIPAuthUsername)] else [])
        ++ (if so.StatusCallback ≠ "" then
              [("StatusCallback", so.StatusCallback)] else [])
        ++ [("StoreMedia", formatBool so.StoreMedia)]
        ++ (if so.TTLMinutes > 0 then
              [("Ttl", toString so.TTLMinutes)] else []) := by
  unfold SendOpts.urlEncode valuesAdd
  split_ifs <;> simp [List.append_assoc]

/-- C1: for every `SendOpts` value, the option encoder appends the key `Ttl`
if and only if the TTL-minutes value is strictly greater than zero, and when
appended its value is the decimal integer string of that number of minutes. -/
theorem C1_ttl_emission (so : SendOpts) (data : List (String × String)) :
    (so.urlEncode data).filter (fun p => p.1 == "Ttl") =
      data.filter (fun p => p.1 == "Ttl") ++
        (if so.TTLMinutes > 0 then [("Ttl", toString so.TTLMinutes)] else []) := by
  rw [SendOpts.urlEncode_expand]
  simp only [List.filter_append]
  split_ifs <;> simp

/-- C4: the rendered message of every `ErrorResponse` is exactly
`fox: error <status> (Twilio error <code>): <message>`; in particular for
status 404, code 1228 and message `Twilio error message` it is exactly
`fox: error 404 (Twilio error 1228): Twilio error message`. -/
theorem C4_error_render :
    (∀ er : ErrorResponse, er.render =
        "fox: error " ++ toString er.Status ++ " (Twilio error " ++
          toString er.Code ++ "): " ++ er.Message)
    ∧ ErrorResponse.render
        { Code := 1228, Message := "Twilio error message"
          MoreInfo := "https://url/to/more/info", Status := 404 } =
      "fox: error 404 (Twilio error 1228): Twilio error message" :=
  ⟨fun _ => rfl, by decide⟩

/-- C5: for every `SendOpts` value the encoder always appends `Quality` with
the quality's canonical label (`standard`, `fine` or `superfine`) and always
appends `StoreMedia` as the literal `true`/`false`, while `SipAuthUsername`,
`SipAuthPassword` and `StatusCallback` are appended exactly when the
corresponding field is non-empty. -/
theorem C5_encoder_keys (so : SendOpts) (data : List (String × String)) :
    ((so.urlEncode data).filter (fun p => p.1 == "Quality") =
        data.filter (fun p => p.1 == "Quality") ++
          [("Quality", so.Quality.render)])
    ∧ (so.Quality.render = "standard" ∨ so.Quality.render = "fine" ∨
        so.Quality.render = "superfine")
    ∧ ((so.urlEncode data).filter (fun p => p.1 == "StoreMedia") =
        data.filter (fun p => p.1 == "StoreMedia") ++
          [("StoreMedia", if so.StoreMedia then "true" else "false")])
    ∧ ((so.urlEncode data).filter (fun p => p.1 == "SipAuthUsername") =
        data.filter (fun p => p.1 == "SipAuthUsername") ++
          (if so.SIPAuthUsername ≠ "" then
            [("SipAuthUsername", so.SIPAuthUsername)] else []))
    ∧ ((so.urlEncode data).filter (fun p => p.1 == "SipAuthPassword") =
        data.filter (fun p => p.1 == "SipAuthPassword") ++
          (if so.SIPAuthPassword ≠ "" then
            [("SipAuthPassword", so.SIPAuthPassword)] else []))
    ∧ ((so.urlEncode data).filter (fun p => p.1 == "StatusCallback") =
        data.filter (fun p => p.1 == "StatusCallback") ++
          (if so.StatusCallback ≠ "" then
            [("StatusCallback", so.StatusCallback)] else [])) := by
  refine ⟨?_, ?_, ?_, ?_, ?_, ?_⟩
  case refine_2 => cases so.Quality <;> simp [qualityType.render]
  all_goals
    rw [SendOpts.urlEncode_expand]
    simp only [List.filter_append, formatBool]
    split_ifs <;> simp

/-- C8: `NewClient` without a send-options argument stores the library
default `DefaultSendOpts`, whose quality is the medium tier `QualityFine`
(canonical label `fine`), whose store-media flag is true, and whose remaining
fields are zero-valued. -/
theorem C8_default_send_opts (accountSID authToken : String) :
    (NewClient accountSID authToken []).sendOpts = some DefaultSendOpts
    ∧ DefaultSendOpts.Quality = .fine
    ∧ DefaultSendOpts.Quality.render = "fine"
    ∧ DefaultSendOpts.StoreMedia = true
    ∧ DefaultSendOpts.SIPAuthPassword = ""
    ∧ DefaultSendOpts.SIPAuthUsername = ""
    ∧ DefaultSendOpts.StatusCallback = ""
    ∧ DefaultSendOpts.TTLMinutes = 0 :=
  ⟨rfl, rfl, rfl, rfl, rfl, rfl, rfl, rfl⟩

/-- C2: every operation validates its inputs before any request is built or
any transport call happens (the conclusions hold for every transport), in
source order, each cause yielding its fixed sentinel: `Send` checks
credentials, then `to`, then `from`, then the media URL; `Get` checks
credentials, then the SID. -/
theorem C2_preflight_validation (c : Client) (cfg : NetConfig)
    (sid toNum fromNum mediaURL : String) (sendOpts : List (Option SendOpts))
    (t : Transport) (pe : String → Except String ErrorResponse)
    (ps : String → Except String SendResponse) :
    ((c.accountSID = "" ∨ c.authToken = "") →
        (c.Send cfg toNum fromNum mediaURL sendOpts t pe ps).1 =
            .error .notAuthenticated
        ∧ (c.Get cfg sid t pe ps).1 = .error .notAuthenticated)
    ∧ (c.accountSID ≠ "" → c.authToken ≠ "" →
        (sid = "" → (c.Get cfg sid t pe ps).1 = .error .missingSID)
        ∧ (toNum = "" →
            (c.Send cfg toNum fromNum mediaURL sendOpts t pe ps).1 =
              .error .missingToNumber)
        ∧ (toNum ≠ "" → fromNum = "" →
            (c.Send cfg toNum fromNum mediaURL sendOpts t pe ps).1 =
              .error .missingFromNumber)
        ∧ (toNum ≠ "" → fromNum ≠ "" → mediaURL = "" →
            (c.Send cfg toNum fromNum mediaURL sendOpts t pe ps).1 =
              .error .missingMediaURL)) := by
  constructor
  · intro h
    constructor <;> simp [Client.Send, Client.Get, h]
  · intro h1 h2
    have hc : ¬(c.accountSID = "" ∨ c.authToken = "") := by
      rintro (h | h) <;> simp_all
    refine ⟨?_, ?_, ?_, ?_⟩
    · intro hs; simp [Client.Get, hc, hs]
    · intro ht; simp [Client.Send, hc, ht]
    · intro ht hf; simp [Client.Send, hc, ht, hf]
    · intro ht hf hm; simp [Client.Send, hc, ht, hf, hm]

/-- Witness for C2 at concrete inputs: each validation branch triggered once
against a transport that would fail loudly if it were ever consulted. -/
theorem C2_preflight_validation_witness :
    (Client.Send ⟨some DefaultSendOpts, "", "TOKEN"⟩ defaultNetConfig
        "+1" "+2" "http://m" [] (fun _ => .error "no call")
        (fun _ => .error "e") (fun _ => .error "e")).1 =
      .error .notAuthenticated
    ∧ (Client.Get ⟨some DefaultSendOpts, "SID", "TOKEN"⟩ defaultNetConfig
        "" (fun _ => .error "no call") (fun _ => .error "e")
        (fun _ => .error "e")).1 = .error .missingSID
    ∧ (Client.Send ⟨some DefaultSendOpts, "SID", "TOKEN"⟩ defaultNetConfig
        "" "+2" "http://m" [] (fun _ => .error "no call")
        (fun _ => .error "e") (fun _ => .error "e")).1 =
      .error .missingToNumber
    ∧ (Client.Send ⟨some DefaultSendOpts, "SID", "TOKEN"⟩ defaultNetConfig
        "+1" "" "http://m" [] (fun _ => .error "no call")
        (fun _ => .error "e") (fun _ => .error "e")).1 =
      .error .missingFromNumber
    ∧ (Client.Send ⟨some DefaultSendOpts, "SID", "TOKEN"⟩ defaultNetConfig
        "+1" "+2" "" [] (fun _ => .error "no call")
        (fun _ => .error "e") (fun _ => .error "e")).1 =
      .error .missingMediaURL := by
  refine ⟨?_, ?_, ?_, ?_, ?_⟩
  · exact ((C2_preflight_validation ⟨some DefaultSendOpts, "", "TOKEN"⟩
      defaultNetConfig "s" "+1" "+2" "http://m" [] _ _ _).1 (Or.inl rfl)).1
  · exact (((C2_preflight_validation ⟨some DefaultSendOpts, "SID", "TOKEN"⟩
      defaultNetConfig "" "+1" "+2" "http://m" [] _ _ _).2 (by decide)
        (by decide)).1 rfl)
  · exact (((C2_preflight_validation ⟨some DefaultSendOpts, "SID", "TOKEN"⟩
      defaultNetConfig "s" "" "+2" "http://m" [] _ _ _).2 (by decide)
        (by decide)).2.1 rfl)
  · exact (((C2_preflight_validation ⟨some DefaultSendOpts, "SID", "TOKEN"⟩
      defaultNetConfig "s" "+1" "" "http://m" [] _ _ _).2 (by decide)
        (by decide)).2.2.1 (by decide) rfl)
  · exact (((C2_preflight_validation ⟨some DefaultSendOpts, "SID", "TOKEN"⟩
      defaultNetConfig "s" "+1" "+2" "" [] _ _ _).2 (by decide)
        (by decide)).2.2.2 (by decide) (by decide) rfl)

/-- C3: `Client.do` returns the raw body with no error exactly for statuses
200 and 201; for any other status it returns the parsed `ErrorResponse` as
the error, and when that parse itself fails the decode error is returned
as-is, never masked as an `ErrorResponse`. -/
theorem C3_do_classification (c : Client) (t : Transport) (r : Request)
    (pe : String → Except String ErrorResponse) (status : Nat) (body : String)
    (hres : t { r with basicAuth := some (c.accountSID, c.authToken) } =
      .ok { status := status, body := body }) :
    ((status = 200 ∨ status = 201) → c.do t r pe = .ok body)
    ∧ (status ≠ 200 → status ≠ 201 →
        (∀ er, pe body = .ok er → c.do t r pe = .error (.api er))
        ∧ (∀ msg, pe body = .error msg →
            c.do t r pe = .error (.decodeFailure msg))) := by
  simp only [Client.do]
  rw [hres]
  constructor
  · rintro (h | h) <;> simp [h]
  · intro h1 h2
    constructor
    · intro er her; simp [h1, h2, her]
    · intro msg hmsg; simp [h1, h2, hmsg]

/-- Witness for C3: a transport answering 404 with a parseable error body
makes `do` return that `ErrorResponse` as the error, and with an unparseable
body it returns the decode error itself. -/
theorem C3_do_classification_witness :
    Client.do ⟨some DefaultSendOpts, "SID", "TOKEN"⟩
        (fun _ => .ok { status := 404, body := "notjson" })
        { method := "GET", url := "u", form := none, basicAuth := none }
        (fun _ => .ok { Code := 1228, Message := "Twilio error message"
                        MoreInfo := "i", Status := 404 }) =
      .error (.api { Code := 1228, Message := "Twilio error message"
                     MoreInfo := "i", Status := 404 })
    ∧ Client.do ⟨some DefaultSendOpts, "SID", "TOKEN"⟩
        (fun _ => .ok { status := 404, body := "notjson" })
        { method := "GET", url := "u", form := none, basicAuth := none }
        (fun _ => .error "invalid character") =
      .error (.decodeFailure "invalid character")
    ∧ Client.do ⟨some DefaultSendOpts, "SID", "TOKEN"⟩
        (fun _ => .ok { status := 200, body := "OK" })
        { method := "GET", url := "u", form := none, basicAuth := none }
        (fun _ => .error "never parsed") = .ok "OK" := by
  refine ⟨?_, ?_, ?_⟩
  · exact ((C3_do_classification _ _ _ _ 404 "notjson" rfl).2 (by decide)
      (by decide)).1 _ rfl
  · exact ((C3_do_classification _ _ _ _ 404 "notjson" rfl).2 (by decide)
      (by decide)).2 _ rfl
  · exact (C3_do_classification _ _ _ _ 200 "OK" rfl).1 (Or.inl rfl)

/-- C9: a per-call override is the options value the request is encoded with
(the continuation runs with the override, not the client default), the
client's stored default is unchanged by the call, and with no override the
client-level default is used. -/
theorem C9_override_precedence (c : Client) (cfg : NetConfig)
    (toNum fromNum mediaURL : String) (o : SendOpts)
    (rest : List (Option SendOpts)) (t : Transport)
    (pe : String → Except String ErrorResponse)
    (ps : String → Except String SendResponse)
    (h1 : c.accountSID ≠ "") (h2 : c.authToken ≠ "") (h3 : toNum ≠ "")
    (h4 : fromNum ≠ "") (h5 : mediaURL ≠ "") :
    (c.Send cfg toNum fromNum mediaURL (some o :: rest) t pe ps =
        (c.sendWith cfg toNum fromNum mediaURL o t pe ps, c))
    ∧ (c.Send cfg toNum fromNum mediaURL (some o :: rest) t pe ps).2 = c
    ∧ (∀ d, c.sendOpts = some d →
        c.Send cfg toNum fromNum mediaURL [] t pe ps =
          (c.sendWith cfg toNum fromNum mediaURL d t pe ps, c))
    ∧ (c.Send cfg toNum fromNum mediaURL [] t pe ps).2 = c := by
  have hc : ¬(c.accountSID = "" ∨ c.authToken = "") := by
    rintro (h | h) <;> simp_all
  refine ⟨?_, ?_, ?_, ?_⟩
  · simp [Client.Send, Client.selectOpts, hc, h3, h4, h5]
  · simp [Client.Send, Client.selectOpts, hc, h3, h4, h5]
  · intro d hd; simp [Client.Send, Client.selectOpts, hc, h3, h4, h5, hd]
  · simp [Client.Send, Client.selectOpts, hc, h3, h4, h5]
    split <;> rfl

/-- Witness for C9: with an override of superfine quality the request runs
with the override while the client keeps its default options. -/
theorem C9_override_precedence_witness :
    (Client.Send ⟨some DefaultSendOpts, "SID", "TOKEN"⟩ defaultNetConfig
        "+1" "+2" "http://m"
        [some { DefaultSendOpts with Quality := .superfine }]
        (fun _ => .error "down") (fun _ => .error "e")
        (fun _ => .error "e") =
      (Client.sendWith ⟨some DefaultSendOpts, "SID", "TOKEN"⟩
        defaultNetConfig "+1" "+2" "http://m"
        { DefaultSendOpts with Quality := .superfine }
        (fun _ => .error "down") (fun _ => .error "e")
        (fun _ => .error "e"), ⟨some DefaultSendOpts, "SID", "TOKEN"⟩))
    ∧ (Client.Send ⟨some DefaultSendOpts, "SID", "TOKEN"⟩ defaultNetConfig
        "+1" "+2" "http://m"
        [some { DefaultSendOpts with Quality := .superfine }]
        (fun _ => .error "down") (fun _ => .error "e")
        (fun _ => .error "e")).2 = ⟨some DefaultSendOpts, "SID", "TOKEN"⟩ := by
  have h := C9_override_precedence ⟨some DefaultSendOpts, "SID", "TOKEN"⟩
    defaultNetConfig "+1" "+2" "http://m"
    { DefaultSendOpts with Quality := .superfine } []
    (fun _ => .error "down") (fun _ => .error "e") (fun _ => .error "e")
    (by decide) (by decide) (by decide) (by decide) (by decide)
  exact ⟨h.1, h.2.1⟩

/-- C10: an explicitly supplied nil override is selected with no nil check,
so encoding is attempted on the nil pointer and faults for every transport;
the fallback to the client default happens only when the variadic list is
empty, so an explicit nil is never replaced by `DefaultSendOpts`. -/
theorem C10_nil_override (c : Client) (cfg : NetConfig)
    (toNum fromNum mediaURL : String) (rest : List (Option SendOpts))
    (t : Transport) (pe : String → Except String ErrorResponse)
    (ps : String → Except String SendResponse)
    (h1 : c.accountSID ≠ "") (h2 : c.authToken ≠ "") (h3 : toNum ≠ "")
    (h4 : fromNum ≠ "") (h5 : mediaURL ≠ "") :
    c.selectOpts (none :: rest) = none
    ∧ (c.Send cfg toNum fromNum mediaURL (none :: rest) t pe ps).1 =
        .error .nilDereference
    ∧ c.selectOpts [] = c.sendOpts := by
  have hc : ¬(c.accountSID = "" ∨ c.authToken = "") := by
    rintro (h | h) <;> simp_all
  refine ⟨rfl, ?_, rfl⟩
  simp [Client.Send, Client.selectOpts, hc, h3, h4, h5]

/-- Witness for C10: a send with an explicit nil override and passing
validations ends in the nil-dereference fault. -/
theorem C10_nil_override_witness :
    (Client.Send ⟨some DefaultSendOpts, "SID", "TOKEN"⟩ defaultNetConfig
        "+1" "+2" "http://m" [none] (fun _ => .error "down")
        (fun _ => .error "e") (fun _ => .error "e")).1 =
      .error .nilDereference :=
  (C10_nil_override ⟨some DefaultSendOpts, "SID", "TOKEN"⟩ defaultNetConfig
    "+1" "+2" "http://m" [] (fun _ => .error "down") (fun _ => .error "e")
    (fun _ => .error "e") (by decide) (by decide) (by decide) (by decide)
    (by decide)).2.1

/-- A decimal digit's character parses back to its value. -/
theorem digVal_digitChar (d : Nat) (h : d < 10) :
    digVal (Nat.digitChar d) = some d := by
  interval_cases d <;> decide

/-- `read2` inverts `pad2` on two-digit values. -/
theorem read2_pad2 (n : Nat) (h : n < 100) (rest : List Char) :
    read2 (pad2 n ++ rest) = some (n, rest) := by
  have h1 : n / 10 < 10 := by omega
  have h2 : n % 10 < 10 := by omega
  simp [pad2, read2, digVal_digitChar _ h1, digVal_digitChar _ h2]
  omega

/-- `read4` inverts `pad4` on four-digit values. -/
theorem read4_pad4 (n : Nat) (h : n < 10000) (rest : List Char) :
    read4 (pad4 n ++ rest) = some (n, rest) := by
  have h1 : n / 1000 < 10 := by omega
  have h2 : n / 100 % 10 < 10 := by omega
  have h3 : n / 10 % 10 < 10 := by omega
  have h4 : n % 10 < 10 := by omega
  simp [pad4, read4, digVal_digitChar _ h1, digVal_digitChar _ h2,
    digVal_digitChar _ h3, digVal_digitChar _ h4]
  omega

/-- `expectChar` consumes the expected character. -/
theorem expectChar_cons (c : Char) (rest : List Char) :
    expectChar c (c :: rest) = some rest := by
  simp [expectChar]

/-- A rendered offset never starts with `.`, so no fraction is read. -/
theorem readFraction_offsetChars (o : Int) :
    readFraction (offsetChars o) = some (0, offsetChars o) := by
  unfold offsetChars
  split_ifs <;> rfl

/-- `read2` inverts `pad2` when nothing follows. -/
theorem read2_pad2_nil (n : Nat) (h : n < 100) :
    read2 (pad2 n) = some (n, []) := by
  have := read2_pad2 n h []
  simpa using this

/-- `readOffset` inverts `offsetChars` on offsets below one day. -/
theorem readOffset_offsetChars (o : Int) (h : o.natAbs < 1440) :
    readOffset (offsetChars o) = some (o, []) := by
  by_cases h0 : o = 0
  · subst h0; rfl
  · have ha : o.natAbs / 60 < 100 := by omega
    have hm : o.natAbs % 60 < 100 := by omega
    have hh23 : o.natAbs / 60 ≤ 23 := by omega
    have hm59 : o.natAbs % 60 ≤ 59 := by omega
    simp only [offsetChars, if_neg h0]
    by_cases hneg : o < 0
    · simp only [if_pos hneg]
      simp [readOffset, read2_pad2 _ ha, expectChar_cons, read2_pad2_nil _ hm,
        hh23, hm59, -Int.natCast_natAbs]
      omega
    · simp only [if_neg hneg]
      simp [readOffset, read2_pad2 _ ha, expectChar_cons, read2_pad2_nil _ hm,
        hh23, hm59, -Int.natCast_natAbs]
      omega

/-- The printed RFC 3339 character list in fully right-nested form, exposing
each fixed-width chunk for the parser lemmas. -/
theorem formatRFC3339chars_eq (t : GoTime) (h : ¬t.year < 0) :
    formatRFC3339chars t =
      pad4 t.year.toNat ++ '-' ::
        (pad2 t.month ++ '-' ::
          (pad2 t.day ++ 'T' ::
            (pad2 t.hour ++ ':' ::
              (pad2 t.minute ++ ':' ::
                (pad2 t.second ++ offsetChars t.offsetMin))))) := by
  simp [formatRFC3339chars, yearChars, if_neg h, List.append_assoc]

/-- `parseDatePart` inverts the printed `YYYY-MM-DD` prefix. -/
theorem parseDatePart_pads (y mo d : Nat) (rest : List Char)
    (hy : y < 10000) (hmo : mo < 100) (hd : d < 100) :
    parseDatePart (pad4 y ++ '-' :: (pad2 mo ++ '-' :: (pad2 d ++ rest))) =
      some (y, mo, d, rest) := by
  unfold parseDatePart
  rw [read4_pad4 _ hy]
  simp only [Option.some_bind]
  rw [expectChar_cons]
  simp only [Option.some_bind]
  rw [read2_pad2 _ hmo]
  simp only [Option.some_bind]
  rw [expectChar_cons]
  simp only [Option.some_bind]
  rw [read2_pad2 _ hd]
  simp only [Option.some_bind]

/-- `parseClockPart` inverts the printed `hh:mm:ss` chunk. -/
theorem parseClockPart_pads (h mi s : Nat) (rest : List Char)
    (hh : h < 100) (hmi : mi < 100) (hs : s < 100) :
    parseClockPart (pad2 h ++ ':' :: (pad2 mi ++ ':' :: (pad2 s ++ rest))) =
      some (h, mi, s, rest) := by
  unfold parseClockPart
  rw [read2_pad2 _ hh]
  simp only [Option.some_bind]
  rw [expectChar_cons]
  simp only [Option.some_bind]
  rw [read2_pad2 _ hmi]
  simp only [Option.some_bind]
  rw [expectChar_cons]
  simp only [Option.some_bind]
  rw [read2_pad2 _ hs]
  simp only [Option.some_bind]

/-- The RFC 3339 printer and parser round-trip on every valid civil time, up
to dropping the (never printed) nanosecond field. -/
theorem parseRFC3339_formatRFC3339 (t : GoTime) (h : t.validCivil) :
    parseRFC3339 (formatRFC3339 t) = some { t with nano := 0 } := by
  obtain ⟨hy1, hy2, hm1, hm2, hd1, hd2, hh, hmin, hsec, hnano, hoff⟩ := h
  have hY : ((t.year.toNat : Int)) = t.year := Int.toNat_of_nonneg (by omega)
  have hynn : ¬t.year < 0 := by omega
  have hdim : daysInMonth t.year t.month ≤ 31 := by
    unfold daysInMonth
    split_ifs <;> omega
  show parseRFC3339chars (formatRFC3339chars t) = _
  rw [formatRFC3339chars_eq t hynn]
  unfold parseRFC3339chars
  rw [parseDatePart_pads _ _ _ _ (by omega) (by omega) (by omega)]
  simp only [Option.some_bind]
  rw [expectChar_cons]
  simp only [Option.some_bind]
  rw [parseClockPart_pads _ _ _ _ (by omega) (by omega) (by omega)]
  simp only [Option.some_bind]
  rw [readFraction_offsetChars]
  simp only [Option.some_bind]
  rw [readOffset_offsetChars _ hoff]
  simp only [Option.some_bind]
  rw [if_pos]
  · rw [hY]
  · refine ⟨trivial, hm1, hm2, hd1, ?_, hh, hmin, hsec⟩
    rw [hY]
    exact hd2

/-- C6 (amended): a `ListOpts` with zero-valued timestamps emits no date
keys; for every valid timestamp the emitted RFC 3339 value parses back and
re-formats to the same string, and it denotes the same instant as the
original timestamp when the timestamp has no sub-second component (the
RFC 3339 layout drops nanoseconds, see the counterexample). -/
theorem C6_date_filters_round_trip :
    (∀ (lo : ListOpts) (data : List (String × String)),
        lo.DateCreatedAfter.isZero → lo.DateCreatedOnOrBefore.isZero →
        (lo.urlEncode data).filter
            (fun p => p.1 == "DateCreatedAfter" ||
              p.1 == "DateCreatedOnOrBefore") =
          data.filter
            (fun p => p.1 == "DateCreatedAfter" ||
              p.1 == "DateCreatedOnOrBefore"))
    ∧ (∀ t : GoTime, t.validCivil →
        parseRFC3339 (formatRFC3339 t) = some { t with nano := 0 }
        ∧ formatRFC3339 { t with nano := 0 } = formatRFC3339 t
        ∧ (t.nano = 0 → parseRFC3339 (formatRFC3339 t) = some t)) := by
  constructor
  · intro lo data hz1 hz2
    simp only [ListOpts.urlEncode, hz1, hz2, Bool.not_true, if_false,
      Bool.false_eq_true, ite_false]
    split_ifs <;> simp [valuesAdd, List.filter_append]
  · intro t ht
    have h1 := parseRFC3339_formatRFC3339 t ht
    refine ⟨h1, rfl, fun hn => ?_⟩
    have he : ({ t with nano := 0 } : GoTime) = t := by
      cases t
      simp_all
    rw [h1, he]

/-- Counterexample to C6 as stated: a non-zero timestamp with a half-second
component formats to a whole-second RFC 3339 string, parses back to the
truncated time, and the parsed value denotes a different instant — the
round trip loses the sub-second part. -/
theorem C6_counterexample :
    GoTime.isZero ⟨2015, 7, 30, 20, 0, 0, 500000000, 0⟩ = false
    ∧ GoTime.validCivil ⟨2015, 7, 30, 20, 0, 0, 500000000, 0⟩
    ∧ parseRFC3339 (formatRFC3339 ⟨2015, 7, 30, 20, 0, 0, 500000000, 0⟩) =
        some ⟨2015, 7, 30, 20, 0, 0, 0, 0⟩
    ∧ GoTime.epochNano ⟨2015, 7, 30, 20, 0, 0, 0, 0⟩ ≠
        GoTime.epochNano ⟨2015, 7, 30, 20, 0, 0, 500000000, 0⟩ :=
  ⟨rfl, by decide, by decide, by decide⟩

/-- Witness for C6: a fully zero `ListOpts` emits no date keys, and a
whole-second timestamp round-trips exactly. -/
theorem C6_date_filters_round_trip_witness :
    (ListOpts.urlEncode ⟨GoTime.zero, GoTime.zero, "", ""⟩ []).filter
        (fun p => p.1 == "DateCreatedAfter" ||
          p.1 == "DateCreatedOnOrBefore") = []
    ∧ parseRFC3339 (formatRFC3339 ⟨2015, 7, 30, 20, 0, 0, 0, 0⟩) =
        some ⟨2015, 7, 30, 20, 0, 0, 0, 0⟩ := by
  constructor
  · exact C6_date_filters_round_trip.1 ⟨GoTime.zero, GoTime.zero, "", ""⟩ []
      (by decide) (by decide)
  · exact (C6_date_filters_round_trip.2 ⟨2015, 7, 30, 20, 0, 0, 0, 0⟩
      (by decide)).2.2 rfl

/-- A list without `/` is a single segment. -/
theorem splitSlash_no_slash (cs : List Char) (h : '/' ∉ cs) :
    splitSlash cs = [cs] := by
  induction cs with
  | nil => rfl
  | cons c cs ih =>
    have hc : ¬(c = '/') := fun he => h (he ▸ List.mem_cons_self _ _)
    have hcs : '/' ∉ cs := fun hm => h (List.mem_cons_of_mem _ hm)
    simp [splitSlash, hc, ih hcs]

/-- Splitting detaches a slash-free prefix as one segment. -/
theorem splitSlash_append (a b : List Char) (h : '/' ∉ a) :
    splitSlash (a ++ '/' :: b) = a :: splitSlash b := by
  induction a with
  | nil => simp [splitSlash]
  | cons c a ih =>
    have hc : ¬(c = '/') := fun he => h (he ▸ List.mem_cons_self _ _)
    have ha : '/' ∉ a := fun hm => h (List.mem_cons_of_mem _ hm)
    simp only [List.cons_append, splitSlash, if_neg hc, List.append_eq, ih ha]

/-- Escaping is the identity on path-safe characters. -/
theorem escapeChars_safe (cs : List Char) (h : ∀ c ∈ cs, isPathSafe c) :
    (cs.map escapePathChar).flatten = cs := by
  induction cs with
  | nil => rfl
  | cons c cs ih =>
    have hc : isPathSafe c = true := h c (List.mem_cons_self _ _)
    have hcs : ∀ x ∈ cs, isPathSafe x := fun x hx =>
      h x (List.mem_cons_of_mem _ hx)
    simp [escapePathChar, hc, ih hcs]

/-- `EscapedPath` is the identity on strings of path-safe characters. -/
theorem escapePath_safe (s : String) (h : ∀ c ∈ s.data, isPathSafe c) :
    escapePath s = s := by
  show String.mk (s.data.map escapePathChar).flatten = s
  rw [escapeChars_safe _ h]

/-- `path.Join(version, endpoint, sid)` for a clean single-segment `sid`. -/
theorem pathJoin_clean_segment (sid : String) (h0 : sid.data ≠ [])
    (h1 : '/' ∉ sid.data) (h2 : sid.data ≠ ['.'])
    (h3 : sid.data ≠ ['.', '.']) :
    pathJoin [apiVersion, apiEndpoint, sid] = ("v1/Faxes/" ++ sid).data := by
  have hsplit : splitSlash (joinSlash ["v1", "Faxes", sid]) =
      ['v', '1'] :: ['F', 'a', 'x', 'e', 's'] :: [sid.data] := by
    rw [show joinSlash ["v1", "Faxes", sid] =
        ['v', '1'] ++ '/' :: (['F', 'a', 'x', 'e', 's'] ++ '/' :: sid.data)
      from rfl]
    rw [splitSlash_append _ _ (by decide), splitSlash_append _ _ (by decide),
      splitSlash_no_slash _ h1]
  have hdrop : (["v1", "Faxes", sid].dropWhile (· = "")) =
      ["v1", "Faxes", sid] := rfl
  have hrooted : decide ((joinSlash ["v1", "Faxes", sid]).head? = some '/') =
      false := rfl
  show pathJoin ["v1", "Faxes", sid] = _
  unfold pathJoin
  rw [hdrop]
  show pathClean (joinSlash ["v1", "Faxes", sid]) = _
  simp only [pathClean]
  rw [hsplit, hrooted]
  simp only [List.foldl]
  rw [show cleanStep false [] ['v', '1'] = [['v', '1']] from rfl]
  rw [show cleanStep false [['v', '1']] ['F', 'a', 'x', 'e', 's'] =
      [['F', 'a', 'x', 'e', 's'], ['v', '1']] from rfl]
  rw [show cleanStep false [['F', 'a', 'x', 'e', 's'], ['v', '1']] sid.data =
      sid.data :: [['F', 'a', 'x', 'e', 's'], ['v', '1']] from by
    unfold cleanStep
    rw [if_neg, if_neg]
    · exact h3
    · rintro (h | h)
      · exact h0 h
      · exact h2 h]
  simp only [List.reverse, List.reverseAux, intercalateSlash]
  rfl

/-- `url.URL.String()` for a relative, escape-free path under a host. -/
theorem URL.render_eq (u : URL) (hhost : u.host ≠ "")
    (hp : escapePath u.path = u.path) (hne : u.path ≠ "")
    (hhead : u.path.data.head? ≠ some '/') :
    u.render = u.scheme ++ "://" ++ u.host ++ "/" ++ u.path := by
  simp only [URL.render]
  rw [hp, if_pos hhost, if_pos ⟨hne, hhead, hhost⟩]
  apply String.ext
  simp [List.append_assoc]

/-- C7 (amended): with any configured scheme and a non-empty host, an empty
resource-id yields the URL `scheme://host/v1/Faxes` (no trailing slash, no
empty segment), and a non-empty resource-id that is a single clean path
segment (no `/`, not `.` or `..`) of characters the URL encoder leaves
unescaped yields `scheme://host/v1/Faxes/<sid>`; other resource-ids are
rewritten by `path.Join`'s cleaning (see the counterexample). -/
theorem C7_build_url (c : Client) (cfg : NetConfig) (sid : String)
    (hh : cfg.host ≠ "") :
    ((c.buildURL cfg "").path = "v1/Faxes"
      ∧ URL.render (c.buildURL cfg "") =
          cfg.scheme ++ "://" ++ cfg.host ++ "/v1/Faxes")
    ∧ (sid ≠ "" → sid ≠ "." → sid ≠ ".." → ('/' ∉ sid.data) →
        (∀ ch ∈ sid.data, isPathSafe ch) →
        (c.buildURL cfg sid).path = "v1/Faxes/" ++ sid
        ∧ URL.render (c.buildURL cfg sid) =
            cfg.scheme ++ "://" ++ cfg.host ++ "/v1/Faxes/" ++ sid) := by
  constructor
  · have hu0 : c.buildURL cfg "" =
        { scheme := cfg.scheme, host := cfg.host, path := "v1/Faxes" } := rfl
    refine ⟨by rw [hu0], ?_⟩
    rw [hu0, URL.render_eq _ hh
      (by decide : escapePath "v1/Faxes" = "v1/Faxes")
      (by decide : ("v1/Faxes" : String) ≠ "")
      (by decide : ("v1/Faxes" : String).data.head? ≠ some '/')]
    apply String.ext
    simp [List.append_assoc]
  · intro hs0 hs1 hs2 hslash hsafe
    have h0 : sid.data ≠ [] := fun he => hs0 (String.ext (by rw [he]))
    have h2 : sid.data ≠ ['.'] := fun he => hs1 (String.ext (by rw [he]))
    have h3 : sid.data ≠ ['.', '.'] := fun he =>
      hs2 (String.ext (by rw [he]))
    have hu : c.buildURL cfg sid =
        { scheme := cfg.scheme, host := cfg.host
          path := "v1/Faxes/" ++ sid } := by
      unfold Client.buildURL
      rw [pathJoin_clean_segment sid h0 hslash h2 h3]
    have hsafeFull : ∀ ch ∈ ("v1/Faxes/" ++ sid).data, isPathSafe ch := by
      intro ch hch
      rw [String.data_append] at hch
      rcases List.mem_append.1 hch with hmem | hmem
      · exact (by decide : ∀ x ∈ "v1/Faxes/".data, isPathSafe x) ch hmem
      · exact hsafe ch hmem
    have hne : ("v1/Faxes/" ++ sid) ≠ "" := by
      simp [String.ext_iff]
    have hhead : ("v1/Faxes/" ++ sid).data.head? = some 'v' := by
      rw [String.data_append]
      rfl
    refine ⟨by rw [hu], ?_⟩
    rw [hu, URL.render_eq _ hh (escapePath_safe _ hsafeFull) hne
      (by rw [hhead]; decide)]
    apply String.ext
    simp [List.append_assoc]

/-- Counterexample to C7 as stated: the non-empty resource-id `..` does not
produce the path `/v1/Faxes/..` — `path.Join` cleans it away, leaving
`https://fax.twilio.com/v1`. -/
theorem C7_counterexample :
    (".." : String) ≠ ""
    ∧ (Client.buildURL ⟨some DefaultSendOpts, "SID", "TOKEN"⟩
        defaultNetConfig "..").path = "v1"
    ∧ URL.render (Client.buildURL ⟨some DefaultSendOpts, "SID", "TOKEN"⟩
        defaultNetConfig "..") = "https://fax.twilio.com/v1"
    ∧ URL.render (Client.buildURL ⟨some DefaultSendOpts, "SID", "TOKEN"⟩
        defaultNetConfig "..") ≠ "https://fax.twilio.com/v1/Faxes/.." :=
  ⟨by decide, by decide, by decide, by decide⟩

/-- Witness for C7: the production configuration with no resource-id and
with the clean resource-id `PARAM`. -/
theorem C7_build_url_witness :
    URL.render (Client.buildURL ⟨some DefaultSendOpts, "SID", "TOKEN"⟩
        defaultNetConfig "") = "https://fax.twilio.com/v1/Faxes"
    ∧ URL.render (Client.buildURL ⟨some DefaultSendOpts, "SID", "TOKEN"⟩
        defaultNetConfig "PARAM") = "https://fax.twilio.com/v1/Faxes/PARAM" := by
  have h := C7_build_url ⟨some DefaultSendOpts, "SID", "TOKEN"⟩
    defaultNetConfig "PARAM" (by decide)
  exact ⟨h.1.2, (h.2 (by decide) (by decide) (by decide) (by decide)
    (by decide)).2⟩

end Fox
